import Mathlib

/-!
Verification of the louDBus marshaling and proxy layer (src/loudbus.c).

This file gives a shallow embedding of the value-marshaling, proxy-handle,
call-kernel and import machinery of `src/loudbus.c`, and proves or refutes
the frozen claims about it.

Modelling conventions, stated once:

* Racket `Scheme_Object` values are the inductive `SchemeObject`.  Racket
  doubles (and single floats, and exact rationals) are modelled as exact
  rationals `Rat`: no claim under verification depends on floating-point
  rounding, only on which host kinds are accepted and on round-tripping the
  carried payload unchanged.
* GLib `GVariant` wire values are the inductive `GVariant`.  A D-Bus array
  of bytes (type string "ay") is canonically the `byteArray` constructor,
  mirroring the fixed-array fast paths of the source; the `array`
  constructor carries the element type string of a non-byte array.
* C `int` / `unsigned int` casts are modelled as wrapping into the 32-bit
  range (`int32wrap`, `uint32wrap`); `(int)` applied to a double is C
  truncation toward zero (`ratTrunc`).
* `scheme_signal_error` and `scheme_wrong_type` perform a non-local exit;
  functions that can take those exits return `Except`/`Option` with the
  error data the C call carries.  The locale string conversions
  (`scheme_char_string_to_byte_string_locale` / `scheme_make_locale_string`)
  are modelled as mutually inverse, i.e. as the identity on the carried
  text.
* The process-wide identity tag (static variable of
  `loudbus_proxy_signature`, written once) is threaded as an explicit `tag`
  parameter through the proxy functions; `loudbus_proxy_signature` itself
  is modelled as the loop over an explicit list of `random ()` draws.
* The transport collaborator (`g_dbus_proxy_call_sync`) is a function
  parameter; `dbus_call_kernel` additionally reports whether the transport
  was invoked, so that "fails before any transport invocation" claims are
  statable.
-/

-- +-------+----------------------------------------------------------
-- | Types |
-- +-------+

/-- One formal parameter of a D-Bus method: `GDBusArgInfo` (name and D-Bus
type signature, the signature kept as its character list). -/
structure GDBusArgInfo where
  name : String
  signature : List Char
deriving DecidableEq, Repr

/-- Metadata of one D-Bus method: `GDBusMethodInfo` (the NULL-terminated C
arrays become lists). -/
structure GDBusMethodInfo where
  name : String
  in_args : List GDBusArgInfo
  out_args : List GDBusArgInfo
  annotations : List String
deriving DecidableEq, Repr

/-- The information stored for a proxy (`struct LouDBusProxy`).  The GLib
references `proxy` and `ninfo` are modelled as "reference held" flags; the
interface information is its list of methods (`[]` models the cleared NULL
field after a free). -/
structure LouDBusProxy where
  signature : Int
  proxy : Bool
  ninfo : Bool
  iinfo : List GDBusMethodInfo
deriving DecidableEq, Repr

/-- Host (Racket) values, as the source distinguishes them via the
`SCHEME_*P` predicates.  `cptr` is a tagged C-pointer object wrapping a
(possibly NULL) `LouDBusProxy` pointer, whose pointee state it carries. -/
inductive SchemeObject where
  | int (n : Int)
  | dbl (x : Rat)
  | flt (x : Rat)
  | rational (x : Rat)
  | charString (s : String)
  | byteString (b : List Nat)
  | symbol (s : String)
  | bool (b : Bool)
  | nullList
  | pair (car cdr : SchemeObject)
  | vector (elts : List SchemeObject)
  | cptr (p : Option LouDBusProxy)
  | void
deriving Repr

/-- Wire (GVariant) values.  `byteArray` is the canonical representation of
a value of D-Bus type "ay"; `array` carries the element type string of any
other array. -/
inductive GVariant where
  | int32 (n : Int)
  | uint32 (n : Nat)
  | double (x : Rat)
  | str (s : String)
  | byteArray (b : List Nat)
  | tuple (elems : List GVariant)
  | array (elemType : List Char) (elems : List GVariant)
deriving Repr

/-- Result of the transport's synchronous call `g_dbus_proxy_call_sync`:
the reply (NULL on failure) and the `GError` message, when one was set. -/
structure TransportReply where
  reply : Option GVariant
  message : Option String

/-- The non-local error exits the call path can take
(`scheme_signal_error` / `scheme_wrong_type`), with the data the C call
formats into its message. -/
inductive CallError where
  | noSuchMethod (dbus_name : String)
  | arityMismatch (external_name : String) (expected received : Nat)
  | wrongType (fn expected : String) (position arity : Nat)
  | callFailed (external_name : String) (message : Option String)
  | decodeError (message : String)
  | invalidProxy (external_name : String)
deriving DecidableEq, Repr

-- +-----------------+------------------------------------------------
-- | Local Utilities |
-- +-----------------+

/-- `dash_it_all`: convert underscores to dashes in a string. -/
def dash_it_all (s : String) : String :=
  String.mk (s.data.map (fun c => if c = '_' then '-' else c))

/-- `score_it_all`: convert dashes to underscores in a string. -/
def score_it_all (s : String) : String :=
  String.mk (s.data.map (fun c => if c = '-' then '_' else c))

/-- A Racket byte string read as a C `char *` (each byte one character). -/
def bytesToString (b : List Nat) : String :=
  String.mk (b.map Char.ofNat)

/-- `dbus_signature_to_string`: human-readable rendering of a D-Bus
signature, switching on its first (and for arrays second) character. -/
def dbus_signature_to_string (signature : List Char) : String :=
  match signature with
  | 'a' :: 'i' :: _ => "list/vector of integers"
  | 'a' :: 's' :: _ => "list/vector of strings"
  | 'a' :: 'y' :: _ => "bytes"
  | 'a' :: _ => String.mk signature
  | 'i' :: _ => "integer"
  | 's' :: _ => "string"
  | 'y' :: _ => "byte"
  | _ => String.mk signature

/-- The C cast `(int) v` of a (possibly wide) integer value: wrap into
`[-2^31, 2^31)`. -/
def int32wrap (n : Int) : Int :=
  (n + 2 ^ 31) % 2 ^ 32 - 2 ^ 31

/-- The C cast `(unsigned int) v`: wrap into `[0, 2^32)`. -/
def uint32wrap (n : Int) : Nat :=
  (n % 2 ^ 32).toNat

/-- The C cast `(int)` applied to a double: truncation toward zero (the
double itself is modelled as an exact rational, whose numerator is divided
by its denominator with `Int.tdiv`, the division that truncates toward
zero exactly as the C conversion does). -/
def ratTrunc (x : Rat) : Int :=
  x.num.tdiv (x.den : Int)

/-- `g_dbus_method_info_num_formals`: count of the method's input
parameters (length of the NULL-terminated `in_args` array). -/
def g_dbus_method_info_num_formals (method : GDBusMethodInfo) : Nat :=
  method.in_args.length

/-- `g_dbus_interface_info_lookup_method`: name-indexed lookup of a method
in the interface's method table. -/
def g_dbus_interface_info_lookup_method (methods : List GDBusMethodInfo)
    (name : String) : Option GDBusMethodInfo :=
  methods.find? (fun m => m.name = name)

-- +-----------------+------------------------------------------------
-- | Type Conversion |
-- +-----------------+

/-- `scheme_object_to_string`: char strings (via the locale byte
conversion, modelled as the identity), byte strings (read as C chars), and
symbols (their textual name) convert; everything else is NULL. -/
def scheme_object_to_string (scmval : SchemeObject) : Option String :=
  match scmval with
  | .charString s => some s
  | .byteString b => some (bytesToString b)
  | .symbol s => some s
  | _ => none

mutual

/-- `scheme_object_to_parameter`: convert a Scheme object to a `GVariant`
for the given D-Bus type signature; NULL (`none`) when the conversion is
impossible.  The special case for a byte string against exactly "ay" comes
first; otherwise the switch dispatches on the signature's first
character. -/
def scheme_object_to_parameter (obj : SchemeObject) (type : List Char) :
    Option GVariant :=
  match obj, type with
  | .byteString b, ['a', 'y'] => some (.byteArray b)
  | obj, type =>
    match type with
    | 'a' :: _ => scheme_object_to_array obj type
    | 'd' :: _ =>
      match obj with
      | .dbl x => some (.double x)
      | .flt x => some (.double x)
      | .int n => some (.double (n : Rat))
      | .rational x => some (.double x)
      | _ => none
    | 'i' :: _ =>
      match obj with
      | .int n => some (.int32 (int32wrap n))
      | .dbl x => some (.int32 (int32wrap (ratTrunc x)))
      | .flt x => some (.int32 (int32wrap (ratTrunc x)))
      | .rational x => some (.int32 (int32wrap (ratTrunc x)))
      | _ => none
    | 's' :: _ =>
      match scheme_object_to_string obj with
      | none => none
      | some str => some (.str str)
    | 'u' :: _ =>
      match obj with
      | .int n => some (.uint32 (uint32wrap n))
      | _ => none
    | _ => none
termination_by (sizeOf obj, 3)

/-- `scheme_object_to_array`: convert a Scheme list or vector to a
`GVariant` array of the declared type.  The empty list builds the empty
array of the declared type (for "ay" that is the empty byte array); list
and vector elements are converted against the element signature
(`type + 1`), aborting the whole conversion on the first failure. -/
def scheme_object_to_array (lv : SchemeObject) (type : List Char) :
    Option GVariant :=
  match lv with
  | .nullList =>
    if type = ['a', 'y'] then some (.byteArray [])
    else some (.array (type.drop 1) [])
  | .pair a d =>
    match encodeConsList (.pair a d) (type.drop 1) with
    | none => none
    | some gvs => some (.array (type.drop 1) gvs)
  | .vector elts =>
    match encodeVecList elts (type.drop 1) with
    | none => none
    | some gvs => some (.array (type.drop 1) gvs)
  | _ => none
termination_by (sizeOf lv, 2)

/-- The cons-by-cons walk of `scheme_object_to_array` over a Scheme list:
each car converts against the element signature; a tail that is neither a
pair nor the empty list (an improper list) fails. -/
def encodeConsList (lv : SchemeObject) (elemType : List Char) :
    Option (List GVariant) :=
  match lv with
  | .nullList => some []
  | .pair a d =>
    match scheme_object_to_parameter a elemType with
    | none => none
    | some gv =>
      match encodeConsList d elemType with
      | none => none
      | some gvs => some (gv :: gvs)
  | _ => none
termination_by (sizeOf lv, 1)

/-- The index walk of `scheme_object_to_array` over a Scheme vector's
elements. -/
def encodeVecList (elts : List SchemeObject) (elemType : List Char) :
    Option (List GVariant) :=
  match elts with
  | [] => some []
  | e :: rest =>
    match scheme_object_to_parameter e elemType with
    | none => none
    | some gv =>
      match encodeVecList rest elemType with
      | none => none
      | some gvs => some (gv :: gvs)
termination_by (sizeOf elts, 0)

end

/-- Build a Scheme (cons) list from a Lean list of elements. -/
def toSchemeList : List SchemeObject → SchemeObject
  | [] => .nullList
  | v :: vs => .pair v (toSchemeList vs)

/-- The elements of a proper Scheme list (an improper tail contributes
nothing, as only proper lists reach the conversion in the source). -/
def listElems : SchemeObject → List SchemeObject
  | .pair a d => a :: listElems d
  | _ => []

/-- `scheme_list_to_vector` from the Racket runtime: build a new vector
holding the elements of a list.  It returns the vector; it does not mutate
its argument. -/
def scheme_list_to_vector (lst : SchemeObject) : SchemeObject :=
  .vector (listElems lst)

mutual

/-- The body of `g_variant_to_scheme_object` on a non-NULL `GVariant`:
dispatch on the wire value's own runtime type.  int32, double and string
become the corresponding host scalars; a value of type "ay" becomes a byte
string (fast path); tuples and arrays are decoded child by child, right to
left, onto an initially empty list — for an array the source then calls
`scheme_list_to_vector` but discards the vector it returns, so the list is
returned in both cases.  Any other type (e.g. uint32) raises
`scheme_signal_error ("Unknown type %s", ...)`. -/
def g_variant_to_scheme_object_core (gv : GVariant) :
    Except String SchemeObject :=
  match gv with
  | .int32 n => .ok (.int n)
  | .uint32 _ => .error "Unknown type u"
  | .double x => .ok (.dbl x)
  | .str s => .ok (.charString s)
  | .byteArray b => .ok (.byteString b)
  | .tuple elems =>
    match g_variant_children_to_scheme_objects elems with
    | .error e => .error e
    | .ok vs => .ok (toSchemeList vs)
  | .array _ elems =>
    match g_variant_children_to_scheme_objects elems with
    | .error e => .error e
    | .ok vs =>
      let lst := toSchemeList vs
      -- The source here calls scheme_list_to_vector (lst) when the value
      -- is an array, but ignores the returned vector and returns lst.
      let _vec := scheme_list_to_vector lst
      .ok lst
termination_by (sizeOf gv, 1)

/-- The right-to-left child loop of `g_variant_to_scheme_object`: children
are decoded from the last to the first (so an error in a later child
surfaces first) and prepended, yielding the children in original order. -/
def g_variant_children_to_scheme_objects (elems : List GVariant) :
    Except String (List SchemeObject) :=
  match elems with
  | [] => .ok []
  | g :: gs =>
    match g_variant_children_to_scheme_objects gs with
    | .error e => .error e
    | .ok vs =>
      match g_variant_to_scheme_object_core g with
      | .error e => .error e
      | .ok v => .ok (v :: vs)
termination_by (sizeOf elems, 0)

end

/-- `g_variant_to_scheme_object`: a NULL `GVariant` is treated as void;
otherwise dispatch on the value's runtime type. -/
def g_variant_to_scheme_object (gv : Option GVariant) :
    Except String SchemeObject :=
  match gv with
  | none => .ok .void
  | some v => g_variant_to_scheme_object_core v

-- +-----------------+------------------------------------------------
-- | Proxy Functions |
-- +-----------------+

/-- `loudbus_proxy_signature`: the process-wide identity tag.  The C keeps
it in a static variable, initially 0, and loops `signature = random ()`
until it is nonzero; every call returns the value the static variable then
holds.  The static variable's current value is `s`; the successive
`random ()` results are the explicit list `draws` (the C loops until a
nonzero draw arrives, so a run that exhausts `draws` at 0 models a still
spinning loop). -/
def loudbus_proxy_signature : Int → List Int → Int
  | s, [] => s
  | s, r :: rs => if s = 0 then loudbus_proxy_signature r rs else s

/-- `loudbus_proxy_validate`: a proxy pointer is valid iff it is non-NULL
and carries the process-wide identity tag. -/
def loudbus_proxy_validate (tag : Int) (proxy : Option LouDBusProxy) : Bool :=
  match proxy with
  | none => false
  | some p => decide (p.signature = tag)

/-- `loudbus_proxy_free`: NULL and non-valid (already freed) pointers are
left untouched; a valid proxy has its identity tag cleared to 0, its
transport proxy and node info references released and cleared, its
interface info cleared, and the enclosing struct deallocated.  The second
component reports whether deallocation happened on this call. -/
def loudbus_proxy_free (tag : Int) (proxy : Option LouDBusProxy) :
    Option LouDBusProxy × Bool :=
  match proxy with
  | none => (none, false)
  | some p =>
    if loudbus_proxy_validate tag (some p) then
      (some { signature := 0, proxy := false, ninfo := false, iinfo := [] },
       true)
    else (some p, false)

/-- `loudbus_proxy_new`: the transport steps (connecting the GDBus proxy,
introspecting for node info, looking up the interface) are external
collaborator results passed in; each failure releases what was acquired and
returns NULL, and on success the struct is stamped with the process-wide
identity tag. -/
def loudbus_proxy_new (tag : Int) (connect node_info : Bool)
    (interface_info : Option (List GDBusMethodInfo)) : Option LouDBusProxy :=
  if !connect then none
  else if !node_info then none
  else
    match interface_info with
    | none => none
    | some methods =>
      some { signature := tag, proxy := true, ninfo := true, iinfo := methods }

/-- `scheme_object_to_proxy`: NULL unless the host value is a C-pointer
object whose pointee validates as a live proxy. -/
def scheme_object_to_proxy (tag : Int) (obj : SchemeObject) :
    Option LouDBusProxy :=
  match obj with
  | .cptr p => if loudbus_proxy_validate tag p then p else none
  | _ => none

-- +-------------+----------------------------------------------------
-- | Call Kernel |
-- +-------------+

/-- The parameter loop of `scheme_objects_to_parameter_tuple`: actual `i`
is converted against formal `i`'s signature; the first failure aborts with
`scheme_wrong_type` carrying the human-readable expected type, the
zero-based position and the total arity. -/
def parameter_tuple_go (fn : String) (arity i : Nat)
    (objects : List SchemeObject) (formals : List GDBusArgInfo) :
    Except CallError (List GVariant) :=
  match objects, formals with
  | o :: os, f :: fs =>
    match scheme_object_to_parameter o f.signature with
    | none =>
      .error (.wrongType fn (dbus_signature_to_string f.signature) i arity)
    | some gv =>
      match parameter_tuple_go fn arity (i + 1) os fs with
      | .error e => .error e
      | .ok gvs => .ok (gv :: gvs)
  | _, _ => .ok []

/-- `scheme_objects_to_parameter_tuple`: convert the actual arguments into
the tuple `GVariant` passed to `g_dbus_proxy_call_sync` (the caller has
already checked that the counts agree). -/
def scheme_objects_to_parameter_tuple (fn : String)
    (objects : List SchemeObject) (formals : List GDBusArgInfo) :
    Except CallError GVariant :=
  match parameter_tuple_go fn objects.length 0 objects formals with
  | .error e => .error e
  | .ok gvs => .ok (.tuple gvs)

/-- `dbus_call_kernel`: look the method up, check the arity, marshal the
actuals, invoke the transport, decode the reply.  The Boolean result
records whether the transport's synchronous call was invoked.  (The C
checks `actuals == NULL` and `sresult == NULL` after calls that cannot
return NULL — `scheme_wrong_type` and `scheme_signal_error` do not return —
so those two branches are dead and the errors of the callees propagate.) -/
def dbus_call_kernel (methods : List GDBusMethodInfo)
    (dbus_name external_name : String) (args : List SchemeObject)
    (transport : String → GVariant → TransportReply) :
    Except CallError SchemeObject × Bool :=
  match g_dbus_interface_info_lookup_method methods dbus_name with
  | none => (.error (.noSuchMethod dbus_name), false)
  | some method =>
    let arity := g_dbus_method_info_num_formals method
    if arity ≠ args.length then
      (.error (.arityMismatch external_name arity args.length), false)
    else
      match scheme_objects_to_parameter_tuple external_name args
          method.in_args with
      | .error e => (.error e, false)
      | .ok actuals =>
        let r := transport dbus_name actuals
        match r.reply with
        | none => (.error (.callFailed external_name r.message), true)
        | some gresult =>
          match g_variant_to_scheme_object (some gresult) with
          | .error e => (.error (.decodeError e), true)
          | .ok sresult => (.ok sresult, true)

/-- The closure captured by a binding built in `loudbus_add_dbus_proc`:
the wrapped proxy object and the two names (wire and exposed). -/
structure PrimClosure where
  wrapped_proxy : SchemeObject
  dbus_name : String
  external_name : String

/-- `loudbus_call_with_closure`: re-extract and re-validate the proxy from
the closure on every invocation; on failure signal "Could not obtain proxy"
without touching the transport, otherwise delegate to the kernel with the
captured wire and exposed names. -/
def loudbus_call_with_closure (tag : Int) (prim : PrimClosure)
    (args : List SchemeObject)
    (transport : String → GVariant → TransportReply) :
    Except CallError SchemeObject × Bool :=
  match scheme_object_to_proxy tag prim.wrapped_proxy with
  | none => (.error (.invalidProxy prim.external_name), false)
  | some p =>
    dbus_call_kernel p.iinfo prim.dbus_name prim.external_name args transport

-- +-----------------+------------------------------------------------
-- | Dynamic Binding |
-- +-----------------+

/-- A binding installed by `loudbus_import` (the data
`loudbus_add_dbus_proc` fixes in the created procedure: the exposed global
name, the captured wire name, and the fixed arity). -/
structure DBusProc where
  external_name : String
  dbus_name : String
  arity : Nat
deriving DecidableEq, Repr

/-- `loudbus_add_dbus_proc`: build one procedure with the given wire name,
exposed name and fixed (min = max) arity. -/
def loudbus_add_dbus_proc (dbus_name external_name : String) (arity : Nat) :
    DBusProc :=
  { external_name := external_name, dbus_name := dbus_name, arity := arity }

/-- `loudbus_import`: for every method of the proxy's interface, compute
the exposed name `pfx ++ method name`, rewrite underscores to dashes in it
when requested, and install one procedure delegating to the unrewritten
wire name with the method's declared input arity. -/
def loudbus_import (methods : List GDBusMethodInfo) (pfx : String)
    (dashes : Bool) : List DBusProc :=
  methods.map (fun method =>
    let external_name := pfx ++ method.name
    let external_name :=
      if dashes then dash_it_all external_name else external_name
    loudbus_add_dbus_proc method.name external_name
      (g_dbus_method_info_num_formals method))

-- +------------------------+-----------------------------------------
-- | Round-trip vocabulary  |
-- +------------------------+

/-- The signatures for which both marshaling directions are implemented in
the source: "i", "d", "s", the byte sequence "ay", and arrays of these.
("u" is excluded: the decode direction has no uint32 case.) -/
def goodSig : List Char → Bool
  | ['i'] => true
  | ['d'] => true
  | ['s'] => true
  | ['a', 'y'] => true
  | 'a' :: rest => goodSig rest
  | _ => false

/-- The exact-host-kind type predicate of a signature, with array values
restricted to proper Scheme lists: an int32-range integer for "i", a
double for "d", a char string for "s", a byte string for "ay", and a
proper list of element values for any other array signature. -/
def rtPred (sig : List Char) (v : SchemeObject) : Bool :=
  match v with
  | .int n => decide (sig = ['i']) && decide (-(2 ^ 31) ≤ n) && decide (n < 2 ^ 31)
  | .dbl _ => decide (sig = ['d'])
  | .charString _ => decide (sig = ['s'])
  | .byteString _ => decide (sig = ['a', 'y'])
  | .nullList =>
    match sig with
    | 'a' :: 'y' :: [] => false
    | 'a' :: _ => true
    | _ => false
  | .pair a d =>
    match sig with
    | 'a' :: 'y' :: [] => false
    | 'a' :: rest => rtPred rest a && rtPred ('a' :: rest) d
    | _ => false
  | _ => false

/-- The host kinds the source's numeric conversion chains test for
(`SCHEME_INTP`, `SCHEME_DBLP`, `SCHEME_FLTP`, `SCHEME_RATIONALP`). -/
def isNumericHost : SchemeObject → Bool
  | .int _ => true
  | .dbl _ => true
  | .flt _ => true
  | .rational _ => true
  | _ => false

-- +----------+-------------------------------------------------------
-- | Theorems |
-- +----------+

/-- Helper: a good array signature's tail is good, except for the "ay"
head pair which is handled separately. -/
theorem goodSig_cons_tail (rest : List Char) (hne : rest ≠ ['y'])
    (hg : goodSig ('a' :: rest) = true) : goodSig rest = true := by
  unfold goodSig at hg
  split at hg
  · rename_i heq; exact absurd heq (by simp)
  · rename_i heq; exact absurd heq (by simp)
  · rename_i heq; exact absurd heq (by simp)
  · rename_i heq
    injection heq with h1 h2
    exact absurd h2 hne
  · rename_i t heq
    injection heq with h1 h2
    exact h2 ▸ hg
  · exact absurd hg (by simp)

/-- Helper: the round-trip induction (on the size of the host value): over
the signatures with both marshaling directions implemented, encoding a
value of the signature's exact host kind succeeds and decoding the
resulting wire value restores the value literally. -/
theorem round_trip_aux : ∀ (N : Nat) (v : SchemeObject) (sig : List Char),
    sizeOf v ≤ N → goodSig sig = true → rtPred sig v = true →
    ∃ gv, scheme_object_to_parameter v sig = some gv ∧
      g_variant_to_scheme_object_core gv = .ok v := by
  intro N
  induction N with
  | zero =>
    intro v sig hN hg hp
    exfalso
    cases v <;> simp at hN
  | succ N ih =>
    intro v sig hN hg hp
    cases v with
    | int n =>
      simp [rtPred] at hp
      obtain ⟨⟨hsig, h1⟩, h2⟩ := hp
      subst hsig
      refine ⟨.int32 (int32wrap n), ?_, ?_⟩
      · simp [scheme_object_to_parameter]
      · have hw : int32wrap n = n := by unfold int32wrap; omega
        simp [g_variant_to_scheme_object_core, hw]
    | dbl x =>
      simp [rtPred] at hp
      subst hp
      exact ⟨.double x, by simp [scheme_object_to_parameter],
        by simp [g_variant_to_scheme_object_core]⟩
    | charString s =>
      simp [rtPred] at hp
      subst hp
      exact ⟨.str s,
        by simp [scheme_object_to_parameter, scheme_object_to_string],
        by simp [g_variant_to_scheme_object_core]⟩
    | byteString b =>
      simp [rtPred] at hp
      subst hp
      exact ⟨.byteArray b, by simp [scheme_object_to_parameter],
        by simp [g_variant_to_scheme_object_core]⟩
    | nullList =>
      unfold rtPred at hp
      split at hp
      · exact absurd hp (by simp)
      · rename_i rest hne
        have hneq : ('a' :: rest) ≠ ['a', 'y'] := by
          intro h; injection h with h1 h2; exact hne h2
        refine ⟨.array rest [], ?_, ?_⟩
        · simp [scheme_object_to_parameter, scheme_object_to_array, hneq]
        · simp [g_variant_to_scheme_object_core,
            g_variant_children_to_scheme_objects, toSchemeList]
      · exact absurd hp (by simp)
    | pair a d =>
      unfold rtPred at hp
      split at hp
      · exact absurd hp (by simp)
      · rename_i rest hne
        rw [Bool.and_eq_true] at hp
        obtain ⟨hpa, hpd⟩ := hp
        have hneq : ('a' :: rest) ≠ ['a', 'y'] := by
          intro h; injection h with h1 h2; exact hne h2
        have hga : goodSig rest = true := goodSig_cons_tail rest hne hg
        simp only [SchemeObject.pair.sizeOf_spec] at hN
        obtain ⟨gva, ea, da⟩ := ih a rest (by omega) hga hpa
        have hd : ∃ gvs vs, encodeConsList d rest = some gvs ∧
            g_variant_children_to_scheme_objects gvs = .ok vs ∧
            toSchemeList vs = d := by
          cases d with
          | nullList =>
            exact ⟨[], [], by simp [encodeConsList],
              by simp [g_variant_children_to_scheme_objects],
              by simp [toSchemeList]⟩
          | pair a2 d2 =>
            obtain ⟨gvd, ed, dd⟩ := ih (.pair a2 d2) ('a' :: rest)
              (by omega) hg hpd
            simp only [scheme_object_to_parameter, scheme_object_to_array,
              List.drop_succ_cons, List.drop_zero] at ed
            rcases hE : encodeConsList (.pair a2 d2) rest with _ | gvs
            · rw [hE] at ed; simp at ed
            · rw [hE] at ed
              simp only [Option.some.injEq] at ed
              subst ed
              simp only [g_variant_to_scheme_object_core] at dd
              rcases hC : g_variant_children_to_scheme_objects gvs with e | vs
              · rw [hC] at dd; simp at dd
              · rw [hC] at dd
                simp only [Except.ok.injEq] at dd
                exact ⟨gvs, vs, rfl, hC, dd⟩
          | int m => exact absurd hpd (by simp [rtPred])
          | dbl x => exact absurd hpd (by simp [rtPred])
          | flt x => exact absurd hpd (by simp [rtPred])
          | rational x => exact absurd hpd (by simp [rtPred])
          | charString s => exact absurd hpd (by simp [rtPred])
          | symbol s => exact absurd hpd (by simp [rtPred])
          | bool b2 => exact absurd hpd (by simp [rtPred])
          | vector elts => exact absurd hpd (by simp [rtPred])
          | cptr p => exact absurd hpd (by simp [rtPred])
          | void => exact absurd hpd (by simp [rtPred])
          | byteString b2 =>
            simp [rtPred] at hpd
            exact (hne hpd).elim
        obtain ⟨gvs, vs, hdc, hchild, htsl⟩ := hd
        refine ⟨.array rest (gva :: gvs), ?_, ?_⟩
        · simp [scheme_object_to_parameter, scheme_object_to_array,
            encodeConsList, ea, hdc]
        · simp [g_variant_to_scheme_object_core,
            g_variant_children_to_scheme_objects, hchild, da, toSchemeList,
            htsl]
      · exact absurd hp (by simp)
    | flt x => simp [rtPred] at hp
    | rational x => simp [rtPred] at hp
    | symbol s => simp [rtPred] at hp
    | bool b => simp [rtPred] at hp
    | vector elts => simp [rtPred] at hp
    | cptr p => simp [rtPred] at hp
    | void => simp [rtPred] at hp

/-- Helper: once the static tag variable is nonzero, every later call of
`loudbus_proxy_signature` returns it unchanged. -/
theorem loudbus_proxy_signature_stable (s : Int) (hs : s ≠ 0)
    (draws : List Int) : loudbus_proxy_signature s draws = s := by
  cases draws with
  | nil => rfl
  | cons r rs => simp [loudbus_proxy_signature, hs]

/-- Helper: a run of the tag loop that can reach a nonzero value returns a
nonzero value. -/
theorem loudbus_proxy_signature_nonzero :
    ∀ (draws : List Int) (s : Int), (s ≠ 0 ∨ ∃ r ∈ draws, r ≠ 0) →
    loudbus_proxy_signature s draws ≠ 0 := by
  intro draws
  induction draws with
  | nil =>
    intro s hs
    rcases hs with h | h
    · exact h
    · simp at h
  | cons r rs ih =>
    intro s hs
    by_cases h0 : s = 0
    · subst h0
      simp [loudbus_proxy_signature]
      apply ih
      rcases hs with h | ⟨x, hx, hxne⟩
      · exact absurd rfl h
      · rcases List.mem_cons.mp hx with h1 | h1
        · exact Or.inl (h1 ▸ hxne)
        · exact Or.inr ⟨x, h1, hxne⟩
    · rw [loudbus_proxy_signature_stable s h0]
      exact h0

/-- C1, counterexample: the claim's round trip fails for the supported
signature "u".  An in-range integer encodes to a uint32 wire value, but
the decode direction has no uint32 case and raises "Unknown type u"
instead of restoring the value. -/
theorem c1_uint32_breaks_round_trip :
    scheme_object_to_parameter (.int 1) ['u'] = some (.uint32 1) ∧
    g_variant_to_scheme_object_core (.uint32 1) = .error "Unknown type u" := by
  constructor
  · simp [scheme_object_to_parameter, uint32wrap]
  · simp [g_variant_to_scheme_object_core]

/-- C1, amended: for every signature supported in both marshaling
directions ("i", "d", "s", "ay", and arrays of these — "u" has no decode
case) and every host value of the signature's exact host kind (with array
values as proper host lists — a vector or an empty list against "ay" does
not decode back to itself), decoding the wire value produced by encode
restores the host value literally; for "ay" the byte string round-trips
byte-for-byte. -/
theorem c1_round_trip (sig : List Char) (v : SchemeObject)
    (hsig : goodSig sig = true) (hv : rtPred sig v = true) :
    ∃ gv, scheme_object_to_parameter v sig = some gv ∧
      g_variant_to_scheme_object_core gv = .ok v :=
  round_trip_aux (sizeOf v) v sig le_rfl hsig hv

/-- C1, witness: the round trip at signature "ai" and the host list
(3 5). -/
theorem c1_round_trip_witness :
    goodSig ['a', 'i'] = true ∧
    rtPred ['a', 'i'] (.pair (.int 3) (.pair (.int 5) .nullList)) = true ∧
    ∃ gv,
      scheme_object_to_parameter
        (.pair (.int 3) (.pair (.int 5) .nullList)) ['a', 'i'] = some gv ∧
      g_variant_to_scheme_object_core gv
        = .ok (.pair (.int 3) (.pair (.int 5) .nullList)) :=
  ⟨by decide, by decide,
    c1_round_trip ['a', 'i'] (.pair (.int 3) (.pair (.int 5) .nullList))
      (by decide) (by decide)⟩

/-- C2, counterexample: a call whose transport reply is the one-element
tuple (5) returns the one-element list (5), not the bare decoded element
5 — `dbus_call_kernel` returns `g_variant_to_scheme_object`'s result
without unwrapping. -/
theorem c2_singleton_tuple_not_unwrapped :
    dbus_call_kernel [⟨"m", [], [], []⟩] "m" "m" []
        (fun _ _ => ⟨some (.tuple [.int32 5]), none⟩)
      = (.ok (.pair (.int 5) .nullList), true) ∧
    SchemeObject.pair (.int 5) .nullList ≠ SchemeObject.int 5 := by
  constructor
  · simp [dbus_call_kernel, g_dbus_interface_info_lookup_method,
      g_dbus_method_info_num_formals, scheme_objects_to_parameter_tuple,
      parameter_tuple_go, g_variant_to_scheme_object,
      g_variant_to_scheme_object_core, g_variant_children_to_scheme_objects,
      toSchemeList, List.find?]
  · simp

/-- C2, amended: the call kernel returns the decoded reply unmodified: a
one-element tuple reply decodes to the one-element list holding the
decoded element; an absent (NULL) reply makes the kernel fail with the
call-failed error before any decoding (while the decode function itself
maps an absent value to the host's no-value marker, void). -/
theorem c2_kernel_returns_reply_unmodified (methods : List GDBusMethodInfo)
    (dn en : String) (args : List SchemeObject) (m : GDBusMethodInfo)
    (transport : String → GVariant → TransportReply) (actuals : GVariant)
    (hm : g_dbus_interface_info_lookup_method methods dn = some m)
    (ha : g_dbus_method_info_num_formals m = args.length)
    (he : scheme_objects_to_parameter_tuple en args m.in_args = .ok actuals) :
    (∀ v dec, transport dn actuals = ⟨some (.tuple [v]), none⟩ →
       g_variant_to_scheme_object_core v = .ok dec →
       dbus_call_kernel methods dn en args transport
         = (.ok (.pair dec .nullList), true))
    ∧ (∀ msg, transport dn actuals = ⟨none, msg⟩ →
       dbus_call_kernel methods dn en args transport
         = (.error (.callFailed en msg), true))
    ∧ g_variant_to_scheme_object none = .ok .void := by
  refine ⟨?_, ?_, by simp [g_variant_to_scheme_object]⟩
  · intro v dec htr hdec
    simp [dbus_call_kernel, hm, ha, he, htr, g_variant_to_scheme_object,
      g_variant_to_scheme_object_core, g_variant_children_to_scheme_objects,
      hdec, toSchemeList]
  · intro msg htr
    simp [dbus_call_kernel, hm, ha, he, htr]

/-- C2, witness: a zero-argument method whose reply is the tuple (7)
yields the list (7). -/
theorem c2_kernel_returns_reply_unmodified_witness :
    g_dbus_interface_info_lookup_method [⟨"m", [], [], []⟩] "m"
        = some ⟨"m", [], [], []⟩ ∧
    (dbus_call_kernel [⟨"m", [], [], []⟩] "m" "m" []
        (fun _ _ => ⟨some (.tuple [.int32 7]), none⟩)
      = (.ok (.pair (.int 7) .nullList), true)) := by
  refine ⟨by simp [g_dbus_interface_info_lookup_method, List.find?], ?_⟩
  exact (c2_kernel_returns_reply_unmodified [⟨"m", [], [], []⟩] "m" "m" []
    ⟨"m", [], [], []⟩ (fun _ _ => ⟨some (.tuple [.int32 7]), none⟩) (.tuple [])
    (by simp [g_dbus_interface_info_lookup_method, List.find?])
    (by simp [g_dbus_method_info_num_formals])
    (by simp [scheme_objects_to_parameter_tuple, parameter_tuple_go])).1
    (.int32 7) (.int 7) rfl (by simp [g_variant_to_scheme_object_core])

/-- C3: decoding the wire array of int32 values [1, 2] returns the host
cons list (1 2), not the vector — the source builds the list in
left-to-right order and then calls `scheme_list_to_vector` (which would
produce the vector) but discards the vector it returns and returns the
list; the tuple of the same children correctly decodes to the list
(1 2). -/
theorem c3_array_decode_returns_list :
    g_variant_to_scheme_object_core (.array ['i'] [.int32 1, .int32 2])
        = .ok (.pair (.int 1) (.pair (.int 2) .nullList)) ∧
    g_variant_to_scheme_object_core (.tuple [.int32 1, .int32 2])
        = .ok (.pair (.int 1) (.pair (.int 2) .nullList)) ∧
    scheme_list_to_vector (.pair (.int 1) (.pair (.int 2) .nullList))
        = .vector [.int 1, .int 2] ∧
    SchemeObject.pair (.int 1) (.pair (.int 2) .nullList)
        ≠ .vector [.int 1, .int 2] := by
  refine ⟨?_, ?_, ?_, ?_⟩
  · simp [g_variant_to_scheme_object_core,
      g_variant_children_to_scheme_objects, toSchemeList]
  · simp [g_variant_to_scheme_object_core,
      g_variant_children_to_scheme_objects, toSchemeList]
  · simp [scheme_list_to_vector, listElems]
  · simp

/-- C4: calling through a valid handle with an actual-argument count that
differs from the resolved method's declared input arity fails with the
arity error naming the expected and the received counts, and the
transport's synchronous call is never invoked (the kernel's transport-
invoked flag is false). -/
theorem c4_arity_mismatch_no_transport (tag : Int) (p : LouDBusProxy)
    (dn en : String) (args : List SchemeObject) (m : GDBusMethodInfo)
    (transport : String → GVariant → TransportReply)
    (hv : loudbus_proxy_validate tag (some p) = true)
    (hm : g_dbus_interface_info_lookup_method p.iinfo dn = some m)
    (ha : g_dbus_method_info_num_formals m ≠ args.length) :
    loudbus_call_with_closure tag ⟨.cptr (some p), dn, en⟩ args transport
      = (.error (.arityMismatch en (g_dbus_method_info_num_formals m)
          args.length), false) := by
  simp [loudbus_call_with_closure, scheme_object_to_proxy, hv,
    dbus_call_kernel, hm, ha]

/-- C4, witness: a one-parameter method called with no arguments fails
with the arity error (expected 1, received 0) and an untouched
transport. -/
theorem c4_arity_mismatch_no_transport_witness :
    loudbus_proxy_validate 1
        (some ⟨1, true, true, [⟨"m", [⟨"x", ['i']⟩], [], []⟩]⟩) = true ∧
    loudbus_call_with_closure 1
        ⟨.cptr (some ⟨1, true, true, [⟨"m", [⟨"x", ['i']⟩], [], []⟩]⟩),
          "m", "m"⟩ []
        (fun _ _ => ⟨none, none⟩)
      = (.error (.arityMismatch "m" 1 0), false) :=
  ⟨by decide,
    c4_arity_mismatch_no_transport 1
      ⟨1, true, true, [⟨"m", [⟨"x", ['i']⟩], [], []⟩]⟩ "m" "m" []
      ⟨"m", [⟨"x", ['i']⟩], [], []⟩ (fun _ _ => ⟨none, none⟩)
      (by decide)
      (by simp [g_dbus_interface_info_lookup_method, List.find?])
      (by simp [g_dbus_method_info_num_formals])⟩

/-- C5, counterexample: the unsigned 32-bit target "u" does not accept a
double (the claim says integer-from-double truncation is accepted for
every scalar numeric target): encoding the double 3 against "u" fails,
although the exact kind (an integer) is accepted there and the same
double is accepted by truncation against "i". -/
theorem c5_u_rejects_double :
    scheme_object_to_parameter (.dbl 3) ['u'] = none ∧
    scheme_object_to_parameter (.int 3) ['u'] = some (.uint32 3) ∧
    scheme_object_to_parameter (.dbl 3) ['i'] = some (.int32 3) := by
  refine ⟨?_, ?_, ?_⟩
  · simp [scheme_object_to_parameter]
  · simp [scheme_object_to_parameter, uint32wrap]
  · simp [scheme_object_to_parameter, int32wrap, ratTrunc]

/-- C5, amended: the targets "d" and "i" accept exactly the numeric host
kinds (integers, doubles, floats and rationals — doubles and rationals
convert to "i" by truncation toward zero, as witnessed by 7/2 encoding to
3 and -7/2 to -3, and integers and rationals convert to "d" by widening),
while "u" accepts only exact integers; every non-numeric host value is
rejected for all three targets. -/
theorem c5_numeric_coercions (v : SchemeObject) :
    ((∃ g, scheme_object_to_parameter v ['d'] = some g)
        ↔ isNumericHost v = true)
    ∧ ((∃ g, scheme_object_to_parameter v ['i'] = some g)
        ↔ isNumericHost v = true)
    ∧ ((∃ g, scheme_object_to_parameter v ['u'] = some g) ↔ ∃ n, v = .int n)
    ∧ (∀ n : Int, scheme_object_to_parameter (.int n) ['d']
        = some (.double (n : Rat)))
    ∧ (∀ x : Rat, scheme_object_to_parameter (.dbl x) ['i']
        = some (.int32 (int32wrap (ratTrunc x))))
    ∧ (∀ x : Rat, scheme_object_to_parameter (.rational x) ['i']
        = some (.int32 (int32wrap (ratTrunc x))))
    ∧ (∀ x : Rat, scheme_object_to_parameter (.rational x) ['d']
        = some (.double x))
    ∧ (∀ x : Rat, scheme_object_to_parameter (.dbl x) ['u'] = none)
    ∧ scheme_object_to_parameter (.dbl (7 / 2)) ['i'] = some (.int32 3)
    ∧ scheme_object_to_parameter (.dbl (-7 / 2)) ['i'] = some (.int32 (-3)) := by
  refine ⟨?_, ?_, ?_, ?_, ?_, ?_, ?_, ?_, ?_, ?_⟩
  · cases v <;> simp [scheme_object_to_parameter, isNumericHost]
  · cases v <;> simp [scheme_object_to_parameter, isNumericHost]
  · cases v <;> simp [scheme_object_to_parameter]
  · intro n; simp [scheme_object_to_parameter]
  · intro x; simp [scheme_object_to_parameter]
  · intro x; simp [scheme_object_to_parameter]
  · intro x; simp [scheme_object_to_parameter]
  · intro x; simp [scheme_object_to_parameter]
  · simp [scheme_object_to_parameter]
    norm_num [ratTrunc, int32wrap]
    decide
  · simp [scheme_object_to_parameter]
    norm_num [ratTrunc, int32wrap]
    decide

/-- C6: with the process-wide tag nonzero (as the tag loop guarantees),
validate returns false for a NULL handle; a host value that is not a
C-pointer handle never yields a proxy; a handle on which release has been
called (whether it was live or already dead) no longer validates; and a
freshly constructed handle validates. -/
theorem c6_validate_lifecycle (tag : Int) (htag : tag ≠ 0) :
    loudbus_proxy_validate tag none = false
    ∧ (∀ obj : SchemeObject, (∀ p, obj ≠ .cptr p) →
        scheme_object_to_proxy tag obj = none)
    ∧ (∀ p : LouDBusProxy,
        loudbus_proxy_validate tag (loudbus_proxy_free tag (some p)).1 = false)
    ∧ (∀ connect node_info interface_info p,
        loudbus_proxy_new tag connect node_info interface_info = some p →
        loudbus_proxy_validate tag (some p) = true) := by
  have h0 : ¬((0 : Int) = tag) := fun hh => htag hh.symm
  refine ⟨rfl, ?_, ?_, ?_⟩
  · intro obj hobj
    cases obj <;> simp [scheme_object_to_proxy]
    exact absurd rfl (hobj _)
  · intro p
    by_cases hsig : p.signature = tag
    · simp [loudbus_proxy_free, loudbus_proxy_validate, hsig, h0]
    · simp [loudbus_proxy_free, loudbus_proxy_validate, hsig]
  · intro connect node_info interface_info p hp
    cases connect <;> cases node_info <;> cases interface_info <;>
      simp [loudbus_proxy_new] at hp
    subst hp
    simp [loudbus_proxy_validate]

/-- C6, witness: the four cases at tag 1 with a concrete fresh proxy. -/
theorem c6_validate_lifecycle_witness :
    (1 : Int) ≠ 0 ∧
    loudbus_proxy_validate 1 none = false ∧
    scheme_object_to_proxy 1 .void = none ∧
    loudbus_proxy_validate 1 (loudbus_proxy_free 1 (some ⟨1, true, true, []⟩)).1
      = false ∧
    loudbus_proxy_validate 1 (some ⟨1, true, true, []⟩) = true :=
  ⟨by decide, (c6_validate_lifecycle 1 (by decide)).1,
    (c6_validate_lifecycle 1 (by decide)).2.1 .void (by intro p h; cases h),
    (c6_validate_lifecycle 1 (by decide)).2.2.1 ⟨1, true, true, []⟩,
    (c6_validate_lifecycle 1 (by decide)).2.2.2 true true (some [])
      ⟨1, true, true, []⟩ (by simp [loudbus_proxy_new])⟩

/-- C7: release is idempotent — releasing the handle that results from any
release (of a NULL, invalid, or live handle) performs no deallocation
(second component false) and leaves the state unchanged, because the first
release cleared the identity tag. -/
theorem c7_release_idempotent (tag : Int) (htag : tag ≠ 0)
    (h : Option LouDBusProxy) :
    loudbus_proxy_free tag (loudbus_proxy_free tag h).1
      = ((loudbus_proxy_free tag h).1, false) := by
  have h0 : ¬((0 : Int) = tag) := fun hh => htag hh.symm
  match h with
  | none => simp [loudbus_proxy_free]
  | some p =>
    by_cases hsig : p.signature = tag
    · simp [loudbus_proxy_free, loudbus_proxy_validate, hsig, h0]
    · simp [loudbus_proxy_free, loudbus_proxy_validate, hsig]

/-- C7, witness: double release of a live proxy at tag 5. -/
theorem c7_release_idempotent_witness :
    (5 : Int) ≠ 0 ∧
    loudbus_proxy_free 5 (loudbus_proxy_free 5 (some ⟨5, true, true, []⟩)).1
      = ((loudbus_proxy_free 5 (some ⟨5, true, true, []⟩)).1, false) :=
  ⟨by decide, c7_release_idempotent 5 (by decide) (some ⟨5, true, true, []⟩)⟩

/-- C8: import with dash-rewriting installs exactly one binding per method
of the handle's metadata cache: the exposed name is the prefix
concatenated with the method name, with every underscore of that combined
name rewritten to a dash; the wire name kept for the transport is the
unrewritten method name, and the fixed arity is the method's declared
input count.  In particular methods get_value and set_value with prefix
"x-" yield exactly the bindings x-get-value and x-set-value delegating to
get_value and set_value. -/
theorem c8_import_bindings (methods : List GDBusMethodInfo) (pfx : String)
    (ins1 ins2 outs1 outs2 : List GDBusArgInfo) (an1 an2 : List String) :
    loudbus_import methods pfx true
      = methods.map (fun m =>
          { external_name := dash_it_all (pfx ++ m.name),
            dbus_name := m.name,
            arity := m.in_args.length })
    ∧ loudbus_import
        [⟨"get_value", ins1, outs1, an1⟩, ⟨"set_value", ins2, outs2, an2⟩]
        "x-" true
      = [⟨"x-get-value", "get_value", ins1.length⟩,
         ⟨"x-set-value", "set_value", ins2.length⟩] := by
  constructor
  · simp [loudbus_import, loudbus_add_dbus_proc,
      g_dbus_method_info_num_formals]
  · simp [loudbus_import, loudbus_add_dbus_proc,
      g_dbus_method_info_num_formals, dash_it_all]

/-- C9: a binding invoked after its owning handle has been released fails
with the invalid-handle error ("Could not obtain proxy") and never reaches
the kernel or the transport, because `loudbus_call_with_closure`
re-validates the captured handle on every invocation and release cleared
its tag. -/
theorem c9_call_after_release (tag : Int) (p pf : LouDBusProxy)
    (dn en : String) (args : List SchemeObject)
    (transport : String → GVariant → TransportReply)
    (htag : tag ≠ 0)
    (hv : loudbus_proxy_validate tag (some p) = true)
    (hf : (loudbus_proxy_free tag (some p)).1 = some pf) :
    pf.signature = 0 ∧
    loudbus_call_with_closure tag ⟨.cptr (some pf), dn, en⟩ args transport
      = (.error (.invalidProxy en), false) := by
  have hsig : p.signature = tag := by
    simpa [loudbus_proxy_validate] using hv
  have h0 : ¬((0 : Int) = tag) := fun hh => htag hh.symm
  simp [loudbus_proxy_free, loudbus_proxy_validate, hsig] at hf
  have hpf : pf = ⟨0, false, false, []⟩ := hf.symm
  subst hpf
  exact ⟨rfl, by
    simp [loudbus_call_with_closure, scheme_object_to_proxy,
      loudbus_proxy_validate, h0]⟩

/-- C9, witness: calling through the released proxy state at tag 2. -/
theorem c9_call_after_release_witness :
    (2 : Int) ≠ 0 ∧
    loudbus_proxy_validate 2 (some ⟨2, true, true, []⟩) = true ∧
    (loudbus_proxy_free 2 (some ⟨2, true, true, []⟩)).1
      = some ⟨0, false, false, []⟩ ∧
    loudbus_call_with_closure 2 ⟨.cptr (some ⟨0, false, false, []⟩), "m", "m"⟩
        [] (fun _ _ => ⟨none, none⟩)
      = (.error (.invalidProxy "m"), false) := by
  refine ⟨by decide, by decide, ?_, ?_⟩
  · simp [loudbus_proxy_free, loudbus_proxy_validate]
  · exact (c9_call_after_release 2 ⟨2, true, true, []⟩ ⟨0, false, false, []⟩
      "m" "m" [] (fun _ _ => ⟨none, none⟩) (by decide) (by decide)
      (by simp [loudbus_proxy_free, loudbus_proxy_validate])).2

/-- C10: a tag produced by the signature loop from a state that can reach
a nonzero value is nonzero and every later call returns it unchanged;
every successfully constructed proxy is stamped with that tag; freeing a
stamped proxy overwrites the tag field with the sentinel 0 and clears the
resources; once a handle fails validation no release changes that; and a
proxy whose tag field is 0 never validates again (Released is
terminal). -/
theorem c10_identity_tag (s : Int) (draws draws2 : List Int) (tag : Int)
    (hd : s ≠ 0 ∨ ∃ r ∈ draws, r ≠ 0)
    (ht : tag = loudbus_proxy_signature s draws) :
    tag ≠ 0
    ∧ loudbus_proxy_signature tag draws2 = tag
    ∧ (∀ connect node_info interface_info p,
        loudbus_proxy_new tag connect node_info interface_info = some p →
        p.signature = tag)
    ∧ (∀ p : LouDBusProxy, p.signature = tag →
        (loudbus_proxy_free tag (some p)).1
          = some { signature := 0, proxy := false, ninfo := false,
                   iinfo := [] })
    ∧ (∀ h, loudbus_proxy_validate tag h = false →
        loudbus_proxy_validate tag (loudbus_proxy_free tag h).1 = false)
    ∧ (∀ p : LouDBusProxy, p.signature = 0 →
        loudbus_proxy_validate tag (some p) = false) := by
  have htag : tag ≠ 0 := ht ▸ loudbus_proxy_signature_nonzero draws s hd
  have h0 : ¬((0 : Int) = tag) := fun hh => htag hh.symm
  refine ⟨htag, loudbus_proxy_signature_stable tag htag draws2, ?_, ?_, ?_, ?_⟩
  · intro connect node_info interface_info p hp
    cases connect <;> cases node_info <;> cases interface_info <;>
      simp [loudbus_proxy_new] at hp
    subst hp
    rfl
  · intro p hsig
    simp [loudbus_proxy_free, loudbus_proxy_validate, hsig]
  · intro h hinv
    match h with
    | none => simpa [loudbus_proxy_free] using hinv
    | some p =>
      have hsig : ¬(p.signature = tag) := by
        simpa [loudbus_proxy_validate] using hinv
      simp [loudbus_proxy_free, loudbus_proxy_validate, hsig]
  · intro p hsig
    simp [loudbus_proxy_validate, hsig, h0]

/-- C10, witness: the tag state 7 with no further draws. -/
theorem c10_identity_tag_witness :
    ((7 : Int) ≠ 0 ∨ ∃ r ∈ ([] : List Int), r ≠ 0) ∧
    (7 : Int) = loudbus_proxy_signature 7 [] ∧
    ((7 : Int) ≠ 0 ∧ loudbus_proxy_signature 7 [3] = 7) :=
  ⟨Or.inl (by decide), by decide,
    ⟨(c10_identity_tag 7 [] [3] 7 (Or.inl (by decide)) (by decide)).1,
     (c10_identity_tag 7 [] [3] 7 (Or.inl (by decide)) (by decide)).2.1⟩⟩
